import Mathlib

/-!
Verification of the `DateInput` component
(`packages/components/inputs/date-input/src/date-input.tsx`).

The component's own handler logic (`onKeyDown`, `onInputBlur`, the
`onStateChange` branch for typed input, `showToday`, `jumpMonth`, `emit`)
is translated directly from the source file.  The calendar helper
functions it imports from the `calendar-utils` package
(`getNextDay`, `getPreviousDay`, `changeMonth`, `getDaysInMonth`,
`getDateInMonth`, `createCalendarItems`, `getIsDateInRange`,
`parseInputToDate`) are not part of the provided sources, so they are
modelled from the specification (sections 4.1 to 4.3).

JavaScript `null`/`undefined` date values are modelled with `Option`;
per the spec, an absent date is never in range.
-/

/-- A concrete calendar day, canonically serialized as `YYYY-MM-DD`
(spec section 3, CalendarDate). Fields are plain naturals; validity
(`1 ≤ month ≤ 12`, `1 ≤ day ≤ days in month`) is assumed via hypotheses
where proofs need it. -/
structure CalendarDate where
  year : Nat
  month : Nat
  day : Nat
  deriving DecidableEq, Repr

/-- Modelled from the spec: Gregorian leap-year rule backing
`daysInMonth`, which must be "correct across leap years"
(spec section 4.1). -/
def isLeapYear (y : Nat) : Bool :=
  (y % 4 == 0 && y % 100 != 0) || (y % 400 == 0)

/-- Modelled from the spec: `daysInMonth` of the month `m` of year `y`
(spec section 4.1), as a function of the raw year/month numbers. -/
def daysInMonthOf (y m : Nat) : Nat :=
  if m = 2 then (if isLeapYear y then 29 else 28)
  else if m = 4 ∨ m = 6 ∨ m = 9 ∨ m = 11 then 30
  else 31

/-- Modelled from the spec: `getDaysInMonth` from `calendar-utils`
(missing from the sources): day count of the month the date lies in. -/
def getDaysInMonth (d : CalendarDate) : Nat :=
  daysInMonthOf d.year d.month

/-- Modelled from the spec: `getDateInMonth` from `calendar-utils`
(missing from the sources): the day-of-month number of a date. -/
def getDateInMonth (d : CalendarDate) : Nat :=
  d.day

/-- Modelled from the spec: `nextDay` rolls over month and year
boundaries (spec section 4.1). -/
def getNextDay (d : CalendarDate) : CalendarDate :=
  if d.day < daysInMonthOf d.year d.month then ⟨d.year, d.month, d.day + 1⟩
  else if d.month < 12 then ⟨d.year, d.month + 1, 1⟩
  else ⟨d.year + 1, 1, 1⟩

/-- Modelled from the spec: `previousDay` rolls over month and year
boundaries (spec section 4.1). -/
def getPreviousDay (d : CalendarDate) : CalendarDate :=
  if 1 < d.day then ⟨d.year, d.month, d.day - 1⟩
  else if 1 < d.month then ⟨d.year, d.month - 1, daysInMonthOf d.year (d.month - 1)⟩
  else ⟨d.year - 1, 12, 31⟩

/-- Linear month index of a date: `12 * year + (month - 1)`.  Two dates
lie in consecutive months exactly when their indices differ by one. -/
def monthIdx (d : CalendarDate) : Int :=
  12 * (d.year : Int) + (d.month : Int) - 1

/-- Modelled from the spec: `addMonths(date, n)` from `calendar-utils`
(missing from the sources), named `changeMonth` in the component's
imports: shift by `n` months (negative allowed), clamping the
day-of-month to the target month's last valid day (spec section 4.1).
Months before year 0 are clamped to January of year 0. -/
def changeMonth (d : CalendarDate) (amount : Int) : CalendarDate :=
  let t : Nat := (monthIdx d + amount).toNat
  let y := t / 12
  let m := t % 12 + 1
  ⟨y, m, min d.day (daysInMonthOf y m)⟩

/-- Chronological comparison of two dates (year, then month, then day). -/
def dateLE (a b : CalendarDate) : Bool :=
  Nat.blt a.year b.year ||
    (Nat.beq a.year b.year &&
      (Nat.blt a.month b.month ||
        (Nat.beq a.month b.month && Nat.ble a.day b.day)))

/-- Modelled from the spec: `getIsDateInRange` from `calendar-utils`
(missing from the sources): true when the minimum is absent or the date
is at or after it, and the maximum is absent or the date is at or
before it; an absent date is never in range (spec section 4.1). -/
def getIsDateInRange (date : Option CalendarDate)
    (minValue maxValue : Option CalendarDate) : Bool :=
  match date with
  | none => false
  | some d =>
    (match minValue with
     | none => true
     | some lo => dateLE lo d) &&
    (match maxValue with
     | none => true
     | some hi => dateLE d hi)

/-- Modelled from the spec: `createCalendarItems` from `calendar-utils`
(missing from the sources): the ordered day cells of the displayed
month, one per day `1 .. daysInMonth` (spec section 4.3; padding cells
are rendered separately from `getPaddingDayCount` and carry no date, so
the item list the key handler indexes into holds only the real days). -/
def createCalendarItems (d : CalendarDate) : List CalendarDate :=
  (List.range (daysInMonthOf d.year d.month)).map
    (fun k => ⟨d.year, d.month, k + 1⟩)

/-- A raw text value is blank when it trims to the empty string,
i.e. every character is whitespace. -/
def isBlank (s : String) : Bool :=
  s.toList.all Char.isWhitespace

/-- Splits a character list at each dash, keeping empty segments. -/
def splitDashAux : List Char → List Char → List (List Char)
  | [], acc => [acc.reverse]
  | c :: rest, acc =>
    if c = '-' then acc.reverse :: splitDashAux rest []
    else splitDashAux rest (c :: acc)

/-- Splits a character list on dashes. -/
def splitDash (cs : List Char) : List (List Char) :=
  splitDashAux cs []

/-- Reads a nonempty run of decimal digits as a number; any non-digit
character makes the whole read fail. -/
def parseNatAux : List Char → Nat → Option Nat
  | [], acc => some acc
  | c :: rest, acc =>
    if c.isDigit then parseNatAux rest (acc * 10 + (c.toNat - 48))
    else none

/-- Reads a nonempty all-digit segment as a number. -/
def parseNatDigits (cs : List Char) : Option Nat :=
  if cs.isEmpty then none else parseNatAux cs 0

/-- Modelled from the spec: `parseInputToDate` from `calendar-utils`
(missing from the sources): converts typed text to a concrete date or
to the no-value result (spec section 4.2).  Blank input and malformed
or impossible dates (no Feb 30) yield `none`; well-formed
`YYYY-MM-DD` text yields the date.  The locale argument of the source
function is dropped: the model accepts the canonical format. -/
def parseInputToDate (s : String) : Option CalendarDate :=
  if isBlank s then none
  else
    match splitDash s.toList with
    | [ys, ms, ds] =>
      match parseNatDigits ys, parseNatDigits ms, parseNatDigits ds with
      | some y, some m, some d =>
        if 1 ≤ m ∧ m ≤ 12 ∧ 1 ≤ d ∧ d ≤ daysInMonthOf y m then
          some ⟨y, m, d⟩
        else none
      | _, _, _ => none
    | _ => none

/-- Two-digit zero padding for the serialized form. -/
def pad2 (n : Nat) : String :=
  if n < 10 then "0" ++ toString n else toString n

/-- Canonical `YYYY-MM-DD` serialization (spec section 6). -/
def serializeDate (d : CalendarDate) : String :=
  toString d.year ++ "-" ++ pad2 d.month ++ "-" ++ pad2 d.day

/-- The component state held in React hooks (date-input.tsx lines
147 to 151): `calendarDate` (the displayed month, stored as a full
date), `suggestedItems` (the tentative parsed dates) and
`highlightedIndex` (`null` is modelled as `none`). -/
structure DateInputState where
  calendarDate : CalendarDate
  suggestedItems : List CalendarDate
  highlightedIndex : Option Nat
  deriving DecidableEq, Repr

/-- The props of the component that the modelled handlers read:
`minValue`, `maxValue` (absent modelled as `none`) and `isReadOnly`. -/
structure Props where
  minValue : Option CalendarDate
  maxValue : Option CalendarDate
  isReadOnly : Bool
  deriving DecidableEq, Repr

/-- JavaScript `Number(highlightedIndex)` as used at date-input.tsx
lines 316, 331, 344 and 358: `Number(null)` evaluates to `0`, a stored
index evaluates to itself. -/
def numberOf : Option Nat → Nat
  | none => 0
  | some n => n

/-- `jumpMonth` (date-input.tsx lines 203 to 207): shift the displayed
month by `amount` months and highlight `dayToHighlight` (default 0 at
the call sites of the header buttons, lines 402 to 406).  It reads no
range props and leaves the suggestions untouched. -/
def jumpMonth (amount : Int) (dayToHighlight : Nat) (s : DateInputState) :
    DateInputState :=
  { s with calendarDate := changeMonth s.calendarDate amount,
           highlightedIndex := some dayToHighlight }

/-- `showToday` (date-input.tsx lines 196 to 201): display today's
month, highlight index `suggestedItems.length + getDateInMonth(today) - 1`,
and focus the input (the returned flag records the focus call).
`getToday()` is impure, so the current date is a parameter. -/
def showToday (today : CalendarDate) (s : DateInputState) :
    DateInputState × Bool :=
  ({ s with
      calendarDate := today,
      highlightedIndex :=
        some (s.suggestedItems.length + getDateInMonth today - 1) },
   true)

/-- The `changeInput` branch of `onStateChange` (date-input.tsx lines
234 to 245): parse the typed text; on no result clear suggestions and
highlight; on a concrete date suggest it, highlight its day index only
when it is in range (otherwise the previous highlight is left as it
was), and display its month. -/
def changeInput (inputValue : String) (p : Props) (s : DateInputState) :
    DateInputState :=
  match parseInputToDate inputValue with
  | none => { s with suggestedItems := [], highlightedIndex := none }
  | some date =>
    { s with
        suggestedItems := [date],
        highlightedIndex :=
          if getIsDateInRange (some date) p.minValue p.maxValue then
            some (getDateInMonth date - 1)
          else s.highlightedIndex,
        calendarDate := date }

/-- `onInputBlur` (date-input.tsx lines 213 to 220), returning the list
of values handed to `emit` (and hence to `onChange` when present):
emit the empty string when the raw text has length 0; then return
unless the text parsed and the parsed date is in range, in which case
emit the serialized date.  The function is total: malformed or
out-of-range text emits nothing and raises no error. -/
def onInputBlur (inputValue : String) (p : Props) : List String :=
  let date := parseInputToDate inputValue
  let inRange := getIsDateInRange date p.minValue p.maxValue
  let blankEmit : List String :=
    if inputValue.length = 0 then [""] else []
  if date = none ∨ inRange = false then blankEmit
  else
    blankEmit ++
      [match date with
       | some d => serializeDate d
       | none => ""]

/-- The keys the `onKeyDown` handler distinguishes. -/
inductive Key
  | enter
  | arrowDown
  | arrowUp
  | other
  deriving DecidableEq, Repr

/-- Result of one `onKeyDown` call: the state after the handler's own
updates, whether `preventDownshiftDefault` was called, and the values
the handler's own code path hands to `emit` (the `clearSelection()`
call on Enter with blank text reaches `emit(null)`, which coerces
`null` to the empty string, date-input.tsx lines 163 to 175). -/
structure KeyDownResult where
  state : DateInputState
  prevented : Bool
  emits : List String
  deriving DecidableEq, Repr

/-- The `onKeyDown` handler (date-input.tsx lines 305 to 369).  When
read-only it suppresses the default and returns at once.  Enter with
blank text clears the selection (emitting the empty string).  The
arrow branches read the day cell at `Number(highlightedIndex)`, range
check its calendar neighbour (an absent neighbour is never in range),
and either block the navigation, jump a month at the month edge, or
fall through to the default index stepping (`prevented := false`). -/
def onKeyDown (key : Key) (inputValue : String) (p : Props)
    (s : DateInputState) : KeyDownResult :=
  if p.isReadOnly then { state := s, prevented := true, emits := [] }
  else
    match key with
    | Key.enter =>
      if isBlank inputValue then
        { state := s, prevented := false, emits := [""] }
      else { state := s, prevented := false, emits := [] }
    | Key.arrowDown =>
      let items := createCalendarItems s.calendarDate
      let nextDayToHighlight :=
        Option.map getNextDay (items.get? (numberOf s.highlightedIndex))
      if getIsDateInRange nextDayToHighlight p.minValue p.maxValue = false
      then { state := s, prevented := true, emits := [] }
      else if items.length ≤ numberOf s.highlightedIndex + 1 then
        { state := jumpMonth 1 0 s, prevented := true, emits := [] }
      else { state := s, prevented := false, emits := [] }
    | Key.arrowUp =>
      let items := createCalendarItems s.calendarDate
      let previousDay :=
        Option.map getPreviousDay (items.get? (numberOf s.highlightedIndex))
      if getIsDateInRange previousDay p.minValue p.maxValue = false then
        { state := s, prevented := true, emits := [] }
      else if numberOf s.highlightedIndex = 0 then
        { state :=
            jumpMonth (-1)
              ((Option.map getDaysInMonth previousDay).getD 0 - 1) s,
          prevented := true, emits := [] }
      else { state := s, prevented := false, emits := [] }
    | Key.other => { state := s, prevented := false, emits := [] }

/-- Modelled from the spec: the Commit transition on Enter (spec
section 4.4) as realized by the Downshift menu (an external library):
Enter selects the highlighted day cell of the rendered grid, and a
cell whose date fails the range check is rendered disabled
(date-input.tsx lines 421 to 426) and cannot be selected.  Returns the
date committed by Enter, if any. -/
def enterCommit (p : Props) (s : DateInputState) : Option CalendarDate :=
  match s.highlightedIndex with
  | none => none
  | some i =>
    match (createCalendarItems s.calendarDate).get? i with
    | none => none
    | some item =>
      if getIsDateInRange (some item) p.minValue p.maxValue then some item
      else none

/-- Modelled from the spec: `warning` from the utils package (missing
from the sources) logs its message when the condition is false and
never throws (spec section 7).  The component calls it only when not
read-only, with the condition that `onChange` is a function
(date-input.tsx lines 155 to 160); this returns whether a warning is
logged. -/
def warningLogged (onChangePresent : Bool) (isReadOnly : Bool) : Bool :=
  !isReadOnly && !onChangePresent

/-- The observable outcome of one key event: resulting state, the
change events actually delivered to the consumer, and whether the
development warning fired. -/
structure StepOut where
  state : DateInputState
  delivered : List String
  warned : Bool
  deriving DecidableEq, Repr

/-- One key event of the whole component, with the `onChange` prop
present or absent: `emit` uses optional chaining (`onChange?.(...)`,
date-input.tsx line 165), so with the prop absent nothing is delivered
and nothing is thrown, while the state updates are those of
`onKeyDown` unchanged. -/
def keyDownStep (onChangePresent : Bool) (key : Key) (inputValue : String)
    (p : Props) (s : DateInputState) : StepOut :=
  let r := onKeyDown key inputValue p s
  { state := r.state,
    delivered := if onChangePresent then r.emits else [],
    warned := warningLogged onChangePresent p.isReadOnly }

/-- The change events a blur delivers to the consumer, with the
`onChange` prop present or absent. -/
def blurEmits (onChangePresent : Bool) (inputValue : String) (p : Props) :
    List String :=
  if onChangePresent then onInputBlur inputValue p else []


/-! ### Helper lemmas -/

/-- Shifting by `amount` months moves the linear month index by exactly
`amount`, as long as the result is not before year 0. -/
theorem monthIdx_changeMonth (d : CalendarDate) (n : Int)
    (h : 0 ≤ monthIdx d + n) :
    monthIdx (changeMonth d n) = monthIdx d + n := by
  unfold changeMonth monthIdx at *
  push_cast
  omega

/-- Every month of the model has at least 28 days. -/
theorem daysInMonthOf_ge (y m : Nat) : 28 ≤ daysInMonthOf y m := by
  unfold daysInMonthOf
  split
  · split <;> omega
  · split <;> omega

/-- The day-cell list has exactly the month's day count. -/
theorem createCalendarItems_length (d : CalendarDate) :
    (createCalendarItems d).length = daysInMonthOf d.year d.month := by
  simp [createCalendarItems]

/-- The `i`-th day cell is day `i + 1` of the displayed month. -/
theorem createCalendarItems_get (d : CalendarDate) (i : Nat)
    (h : i < daysInMonthOf d.year d.month) :
    (createCalendarItems d)[i]? = some ⟨d.year, d.month, i + 1⟩ := by
  simp [createCalendarItems, List.getElem?_map, List.getElem?_range h]

/-- For a month-valid date with `1 ≤ year`, moving one month back lands
in the same year and month as the day before the first of that month. -/
theorem changeMonth_back_align (d : CalendarDate) (hm1 : 1 ≤ d.month)
    (hm2 : d.month ≤ 12) (hy : 1 ≤ d.year) :
    (changeMonth d (-1)).year =
        (getPreviousDay ⟨d.year, d.month, 1⟩).year ∧
      (changeMonth d (-1)).month =
        (getPreviousDay ⟨d.year, d.month, 1⟩).month := by
  obtain ⟨y, m, dd⟩ := d
  simp only at hm1 hm2 hy
  unfold changeMonth getPreviousDay monthIdx
  simp only
  rcases Nat.lt_or_ge 1 m with hm | hm
  · rw [if_neg (by omega), if_pos hm]
    constructor <;> simp <;> omega
  · have hm0 : m = 1 := by omega
    subst hm0
    rw [if_neg (by omega), if_neg (by omega)]
    constructor <;> simp <;> omega

/-- Enter never commits a date that fails the range check: the
committed cell is range checked before selection. -/
theorem enterCommit_inRange (p : Props) (s : DateInputState)
    (d : CalendarDate) (h : enterCommit p s = some d) :
    getIsDateInRange (some d) p.minValue p.maxValue = true := by
  unfold enterCommit at h
  split at h
  · simp at h
  · split at h
    · simp at h
    · split at h
      · cases h
        assumption
      · simp at h

/-- Core behaviour of ArrowUp when `Number(highlightedIndex)` is 0: the
handler range checks the day before the displayed month's first day,
and either blocks or jumps to the previous month with the last day
highlighted. -/
theorem arrowUp_zero_core (inputValue : String) (p : Props)
    (s : DateInputState) (hro : p.isReadOnly = false)
    (h0 : numberOf s.highlightedIndex = 0) :
    (getIsDateInRange
        (some (getPreviousDay
          ⟨s.calendarDate.year, s.calendarDate.month, 1⟩))
        p.minValue p.maxValue = true →
      onKeyDown Key.arrowUp inputValue p s =
        { state :=
            { s with
                calendarDate := changeMonth s.calendarDate (-1),
                highlightedIndex :=
                  some (getDaysInMonth (getPreviousDay
                    ⟨s.calendarDate.year, s.calendarDate.month, 1⟩) - 1) },
          prevented := true, emits := [] }) ∧
    (getIsDateInRange
        (some (getPreviousDay
          ⟨s.calendarDate.year, s.calendarDate.month, 1⟩))
        p.minValue p.maxValue = false →
      onKeyDown Key.arrowUp inputValue p s =
        { state := s, prevented := true, emits := [] }) := by
  have hday : 0 < daysInMonthOf s.calendarDate.year s.calendarDate.month := by
    have := daysInMonthOf_ge s.calendarDate.year s.calendarDate.month
    omega
  have hfirst := createCalendarItems_get s.calendarDate 0 hday
  constructor
  · intro hin
    simp [onKeyDown, hro, h0, hfirst, hin, jumpMonth]
  · intro hout
    simp [onKeyDown, hro, h0, hfirst, hout]

/-- C2: in every state whose highlighted index is 0 (the first day of
the displayed month), ArrowUp moves the displayed month back by exactly
one month and highlights the last index of the previous month's grid
(its days-in-month minus one), provided the day before the highlighted
day is in range; if that previous day is out of range the handler
suppresses the navigation and no state field changes. -/
theorem arrowUp_firstIndex_jumpsToPrevMonth (inputValue : String)
    (p : Props) (s : DateInputState) (hro : p.isReadOnly = false)
    (hhi : s.highlightedIndex = some 0)
    (hm1 : 1 ≤ s.calendarDate.month) (hm2 : s.calendarDate.month ≤ 12)
    (hy : 1 ≤ s.calendarDate.year) :
    (getIsDateInRange
        (some (getPreviousDay
          ⟨s.calendarDate.year, s.calendarDate.month, 1⟩))
        p.minValue p.maxValue = true →
      (onKeyDown Key.arrowUp inputValue p s).state.calendarDate =
          changeMonth s.calendarDate (-1) ∧
        monthIdx (onKeyDown Key.arrowUp inputValue p s).state.calendarDate =
          monthIdx s.calendarDate - 1 ∧
        (onKeyDown Key.arrowUp inputValue p s).state.highlightedIndex =
          some (getDaysInMonth (getPreviousDay
            ⟨s.calendarDate.year, s.calendarDate.month, 1⟩) - 1) ∧
        getDaysInMonth (getPreviousDay
            ⟨s.calendarDate.year, s.calendarDate.month, 1⟩) =
          (createCalendarItems
            (onKeyDown Key.arrowUp inputValue p s).state.calendarDate).length ∧
        (onKeyDown Key.arrowUp inputValue p s).state.suggestedItems =
          s.suggestedItems) ∧
    (getIsDateInRange
        (some (getPreviousDay
          ⟨s.calendarDate.year, s.calendarDate.month, 1⟩))
        p.minValue p.maxValue = false →
      (onKeyDown Key.arrowUp inputValue p s).state = s ∧
        (onKeyDown Key.arrowUp inputValue p s).prevented = true) := by
  have core := arrowUp_zero_core inputValue p s hro (by rw [hhi]; rfl)
  constructor
  · intro hin
    have heq := core.1 hin
    have hal := changeMonth_back_align s.calendarDate hm1 hm2 hy
    rw [heq]
    refine ⟨rfl, ?_, rfl, ?_, rfl⟩
    · show monthIdx (changeMonth s.calendarDate (-1)) =
        monthIdx s.calendarDate - 1
      have h1 : (0:Int) ≤ monthIdx s.calendarDate + (-1) := by
        unfold monthIdx
        omega
      have h2 := monthIdx_changeMonth s.calendarDate (-1) h1
      omega
    · show getDaysInMonth (getPreviousDay
          ⟨s.calendarDate.year, s.calendarDate.month, 1⟩) =
        (createCalendarItems (changeMonth s.calendarDate (-1))).length
      rw [createCalendarItems_length]
      unfold getDaysInMonth
      rw [hal.1, hal.2]
  · intro hout
    have heq := core.2 hout
    rw [heq]
    exact ⟨rfl, rfl⟩

/-- Witness for C2: January 2024 displayed with index 0 highlighted and
no range limits; ArrowUp jumps to December 2023 and highlights index
30 (December has 31 days). -/
theorem arrowUp_firstIndex_jumpsToPrevMonth_witness :
    (onKeyDown Key.arrowUp "" ⟨none, none, false⟩
        ⟨⟨2024, 1, 1⟩, [], some 0⟩).state.calendarDate =
      changeMonth ⟨2024, 1, 1⟩ (-1) ∧
    (onKeyDown Key.arrowUp "" ⟨none, none, false⟩
        ⟨⟨2024, 1, 1⟩, [], some 0⟩).state.highlightedIndex =
      some (getDaysInMonth (getPreviousDay ⟨2024, 1, 1⟩) - 1) := by
  have h := (arrowUp_firstIndex_jumpsToPrevMonth ""
    ⟨none, none, false⟩ ⟨⟨2024, 1, 1⟩, [], some 0⟩
    rfl rfl (by decide) (by decide) (by decide)).1 (by decide)
  exact ⟨h.1, h.2.2.1⟩

/-- C10: with a `null` highlight the arrow handlers read the cell at
`Number(null) = 0`, the first day of the displayed month.  ArrowUp then
jumps the displayed month back by one and highlights the last day of
that previous month whenever the day before the first day is in range,
and both arrow keys range check the neighbours of the first day rather
than skipping the check: an out-of-range neighbour blocks the key with
no state change. -/
theorem nullHighlight_treatedAsZero (inputValue : String) (p : Props)
    (s : DateInputState) (hro : p.isReadOnly = false)
    (hhi : s.highlightedIndex = none)
    (hm1 : 1 ≤ s.calendarDate.month) (hm2 : s.calendarDate.month ≤ 12)
    (hy : 1 ≤ s.calendarDate.year) :
    (getIsDateInRange
        (some (getPreviousDay
          ⟨s.calendarDate.year, s.calendarDate.month, 1⟩))
        p.minValue p.maxValue = true →
      (onKeyDown Key.arrowUp inputValue p s).state.calendarDate =
          changeMonth s.calendarDate (-1) ∧
        monthIdx (onKeyDown Key.arrowUp inputValue p s).state.calendarDate =
          monthIdx s.calendarDate - 1 ∧
        (onKeyDown Key.arrowUp inputValue p s).state.highlightedIndex =
          some (getDaysInMonth (getPreviousDay
            ⟨s.calendarDate.year, s.calendarDate.month, 1⟩) - 1) ∧
        getDaysInMonth (getPreviousDay
            ⟨s.calendarDate.year, s.calendarDate.month, 1⟩) =
          (createCalendarItems
            (onKeyDown Key.arrowUp inputValue p s).state.calendarDate).length) ∧
    (getIsDateInRange
        (some (getPreviousDay
          ⟨s.calendarDate.year, s.calendarDate.month, 1⟩))
        p.minValue p.maxValue = false →
      (onKeyDown Key.arrowUp inputValue p s).state = s ∧
        (onKeyDown Key.arrowUp inputValue p s).prevented = true) ∧
    (getIsDateInRange
        (some (getNextDay
          ⟨s.calendarDate.year, s.calendarDate.month, 1⟩))
        p.minValue p.maxValue = false →
      (onKeyDown Key.arrowDown inputValue p s).state = s ∧
        (onKeyDown Key.arrowDown inputValue p s).prevented = true) := by
  have core := arrowUp_zero_core inputValue p s hro (by rw [hhi]; rfl)
  refine ⟨?_, fun hout => by rw [core.2 hout]; exact ⟨rfl, rfl⟩, ?_⟩
  · intro hin
    have heq := core.1 hin
    have hal := changeMonth_back_align s.calendarDate hm1 hm2 hy
    rw [heq]
    refine ⟨rfl, ?_, rfl, ?_⟩
    · show monthIdx (changeMonth s.calendarDate (-1)) =
        monthIdx s.calendarDate - 1
      have h1 : (0:Int) ≤ monthIdx s.calendarDate + (-1) := by
        unfold monthIdx
        omega
      have h2 := monthIdx_changeMonth s.calendarDate (-1) h1
      omega
    · show getDaysInMonth (getPreviousDay
          ⟨s.calendarDate.year, s.calendarDate.month, 1⟩) =
        (createCalendarItems (changeMonth s.calendarDate (-1))).length
      rw [createCalendarItems_length]
      unfold getDaysInMonth
      rw [hal.1, hal.2]
  · intro hout
    have hday : 0 < daysInMonthOf s.calendarDate.year s.calendarDate.month := by
      have := daysInMonthOf_ge s.calendarDate.year s.calendarDate.month
      omega
    have hfirst := createCalendarItems_get s.calendarDate 0 hday
    have h0 : numberOf s.highlightedIndex = 0 := by rw [hhi]; rfl
    constructor
    · simp [onKeyDown, hro, h0, hfirst, hout]
    · simp [onKeyDown, hro, h0, hfirst, hout]

/-- Witness for C10: February 2023 displayed with no highlight and a
minimum of 2023-01-15; the day before Feb 1 (Jan 31) is in range, so
ArrowUp jumps to January 2023 and highlights index 30. -/
theorem nullHighlight_treatedAsZero_witness :
    (onKeyDown Key.arrowUp "x" ⟨some ⟨2023, 1, 15⟩, none, false⟩
        ⟨⟨2023, 2, 10⟩, [], none⟩).state.calendarDate =
      changeMonth ⟨2023, 2, 10⟩ (-1) ∧
    (onKeyDown Key.arrowUp "x" ⟨some ⟨2023, 1, 15⟩, none, false⟩
        ⟨⟨2023, 2, 10⟩, [], none⟩).state.highlightedIndex =
      some (getDaysInMonth (getPreviousDay ⟨2023, 2, 1⟩) - 1) := by
  have h := (nullHighlight_treatedAsZero "x"
    ⟨some ⟨2023, 1, 15⟩, none, false⟩ ⟨⟨2023, 2, 10⟩, [], none⟩
    rfl rfl (by decide) (by decide) (by decide)).1 (by decide)
  exact ⟨h.1, h.2.2.1⟩

/-- C1: in every state whose highlighted cell is the last day of the
displayed month, ArrowDown moves the displayed month forward by exactly
one month and sets the highlighted index to 0, provided the day after
the highlighted day is in range; if that next day is out of range the
handler suppresses the navigation and leaves the displayed month, the
highlighted index and the suggestions unchanged. -/
theorem arrowDown_lastDay_jumpsToNextMonth (inputValue : String)
    (p : Props) (s : DateInputState) (i : Nat) (d : CalendarDate)
    (hro : p.isReadOnly = false)
    (hhi : s.highlightedIndex = some i)
    (hitem : (createCalendarItems s.calendarDate)[i]? = some d)
    (hlast : i + 1 = (createCalendarItems s.calendarDate).length) :
    (getIsDateInRange (some (getNextDay d)) p.minValue p.maxValue = true →
      (onKeyDown Key.arrowDown inputValue p s).state =
          { s with
              calendarDate := changeMonth s.calendarDate 1,
              highlightedIndex := some 0 } ∧
        monthIdx (onKeyDown Key.arrowDown inputValue p s).state.calendarDate =
          monthIdx s.calendarDate + 1 ∧
        (onKeyDown Key.arrowDown inputValue p s).prevented = true) ∧
    (getIsDateInRange (some (getNextDay d)) p.minValue p.maxValue = false →
      (onKeyDown Key.arrowDown inputValue p s).state = s ∧
        (onKeyDown Key.arrowDown inputValue p s).prevented = true) := by
  have h0 : numberOf s.highlightedIndex = i := by rw [hhi]; rfl
  constructor
  · intro hin
    have hstep : onKeyDown Key.arrowDown inputValue p s =
        { state := jumpMonth 1 0 s, prevented := true, emits := [] } := by
      simp [onKeyDown, hro, h0, hitem, hin]
      omega
    rw [hstep]
    refine ⟨rfl, ?_, rfl⟩
    show monthIdx (changeMonth s.calendarDate 1) = monthIdx s.calendarDate + 1
    exact monthIdx_changeMonth s.calendarDate 1 (by unfold monthIdx; omega)
  · intro hout
    constructor
    · simp [onKeyDown, hro, h0, hitem, hout]
    · simp [onKeyDown, hro, h0, hitem, hout]

/-- Witness for C1: January 2024 displayed with index 30 (Jan 31, the
last day) highlighted and no range limits; ArrowDown jumps to February
2024 and highlights index 0. -/
theorem arrowDown_lastDay_jumpsToNextMonth_witness :
    (onKeyDown Key.arrowDown "" ⟨none, none, false⟩
        ⟨⟨2024, 1, 1⟩, [], some 30⟩).state =
      { calendarDate := changeMonth ⟨2024, 1, 1⟩ 1,
        suggestedItems := [],
        highlightedIndex := some 0 } ∧
    (onKeyDown Key.arrowDown "" ⟨none, none, false⟩
        ⟨⟨2024, 1, 1⟩, [], some 30⟩).prevented = true := by
  have h := (arrowDown_lastDay_jumpsToNextMonth ""
    ⟨none, none, false⟩ ⟨⟨2024, 1, 1⟩, [], some 30⟩ 30 ⟨2024, 1, 31⟩
    rfl rfl (by decide) (by decide)).1 (by decide)
  exact ⟨h.1, h.2.2⟩

/-- A string of length 0 is the empty string. -/
theorem string_length_zero (s : String) (h : s.length = 0) : s = "" := by
  cases s with
  | mk data =>
    cases data with
    | nil => rfl
    | cons c cs => simp [String.length] at h

/-- Text that parses to a date is not the empty string. -/
theorem parse_some_length_ne (s : String) (d : CalendarDate)
    (h : parseInputToDate s = some d) : s.length ≠ 0 := by
  intro h0
  have hs := string_length_zero s h0
  subst hs
  have hnone : parseInputToDate "" = (none : Option CalendarDate) := by decide
  rw [hnone] at h
  exact Option.noConfusion h

/-- C9: while `isReadOnly` is set, every key press is suppressed by the
handler, which returns at once: no state field changes and nothing is
handed to `emit`, for any key including Enter and the arrows. -/
theorem readOnly_keydown_noop (key : Key) (inputValue : String)
    (p : Props) (s : DateInputState) (hro : p.isReadOnly = true) :
    onKeyDown key inputValue p s =
      { state := s, prevented := true, emits := [] } := by
  simp [onKeyDown, hro]

/-- Witness for C9: a read-only Enter press on a populated state is a
suppressed no-op. -/
theorem readOnly_keydown_noop_witness :
    onKeyDown Key.enter " " ⟨none, none, true⟩
        ⟨⟨2024, 6, 1⟩, [], some 3⟩ =
      { state := ⟨⟨2024, 6, 1⟩, [], some 3⟩, prevented := true,
        emits := [] } :=
  readOnly_keydown_noop Key.enter " " ⟨none, none, true⟩
    ⟨⟨2024, 6, 1⟩, [], some 3⟩ rfl

/-- C7: blank raw text (empty or whitespace-only after trim) clears
the suggestion list and the highlight in the typed-input transition,
and Enter then clears the selection, handing the empty string to the
change callback (the internal `null` is coerced to the empty string by
`emit`); no day cell is left for Enter to commit. -/
theorem blankInput_clearsAndCommitsEmpty (inputValue : String)
    (p : Props) (s : DateInputState) (hro : p.isReadOnly = false)
    (hblank : isBlank inputValue = true) :
    (changeInput inputValue p s).suggestedItems = [] ∧
    (changeInput inputValue p s).highlightedIndex = none ∧
    (onKeyDown Key.enter inputValue p s).emits = [""] ∧
    (onKeyDown Key.enter inputValue p s).state = s ∧
    enterCommit p (changeInput inputValue p s) = none := by
  have hp : parseInputToDate inputValue = none := by
    unfold parseInputToDate
    rw [hblank]
    rfl
  refine ⟨?_, ?_, ?_, ?_, ?_⟩ <;>
    simp [changeInput, onKeyDown, enterCommit, hro, hblank, hp]

/-- Witness for C7: typing two spaces clears suggestions and
highlight, and Enter emits the empty string. -/
theorem blankInput_clearsAndCommitsEmpty_witness :
    (changeInput "  " ⟨none, none, false⟩
        ⟨⟨2024, 3, 1⟩, [⟨2024, 3, 5⟩], some 4⟩).suggestedItems = [] ∧
    (changeInput "  " ⟨none, none, false⟩
        ⟨⟨2024, 3, 1⟩, [⟨2024, 3, 5⟩], some 4⟩).highlightedIndex = none ∧
    (onKeyDown Key.enter "  " ⟨none, none, false⟩
        ⟨⟨2024, 3, 1⟩, [⟨2024, 3, 5⟩], some 4⟩).emits = [""] := by
  have h := blankInput_clearsAndCommitsEmpty "  " ⟨none, none, false⟩
    ⟨⟨2024, 3, 1⟩, [⟨2024, 3, 5⟩], some 4⟩ rfl (by decide)
  exact ⟨h.1, h.2.1, h.2.2.1⟩

/-- C6: every month or year navigation button sets the displayed month
to the target month (the current one shifted by -1, +1, -12 or +12
months) and the highlighted index to 0; `jumpMonth` reads no range
props, so no range check restricts the move and the suggestions are
untouched. -/
theorem jumpMonth_navigation (s : DateInputState) (amount : Int)
    (ha : amount = -1 ∨ amount = 1 ∨ amount = -12 ∨ amount = 12)
    (hm1 : 1 ≤ s.calendarDate.month) (hy : 1 ≤ s.calendarDate.year) :
    (jumpMonth amount 0 s).calendarDate = changeMonth s.calendarDate amount ∧
    (jumpMonth amount 0 s).highlightedIndex = some 0 ∧
    (jumpMonth amount 0 s).suggestedItems = s.suggestedItems ∧
    monthIdx (jumpMonth amount 0 s).calendarDate =
      monthIdx s.calendarDate + amount := by
  refine ⟨rfl, rfl, rfl, ?_⟩
  show monthIdx (changeMonth s.calendarDate amount) =
    monthIdx s.calendarDate + amount
  apply monthIdx_changeMonth
  unfold monthIdx
  rcases ha with h | h | h | h <;> subst h <;> omega

/-- Witness for C6: the previous-year button from March 2024 lands on
March 2023 (12 months back) with index 0 highlighted, although every
day of 2023 is below the minimum 2024-01-01. -/
theorem jumpMonth_navigation_witness :
    (jumpMonth (-12) 0 ⟨⟨2024, 3, 5⟩, [], some 7⟩).calendarDate =
      changeMonth ⟨2024, 3, 5⟩ (-12) ∧
    (jumpMonth (-12) 0 ⟨⟨2024, 3, 5⟩, [], some 7⟩).highlightedIndex =
      some 0 ∧
    monthIdx (jumpMonth (-12) 0 ⟨⟨2024, 3, 5⟩, [], some 7⟩).calendarDate =
      monthIdx ⟨2024, 3, 5⟩ + (-12) := by
  have h := jumpMonth_navigation ⟨⟨2024, 3, 5⟩, [], some 7⟩ (-12)
    (Or.inr (Or.inr (Or.inl rfl))) (by decide) (by decide)
  exact ⟨h.1, h.2.1, h.2.2.2⟩

/-- Counterexample to C5 as stated: with one suggestion pending,
clicking "today" (today being 2024-05-10) highlights index 10, not the
day-of-month index 9, because `showToday` adds the length of the
suggestion list. -/
theorem showToday_dayIndex_refuted :
    ¬ ((showToday ⟨2024, 5, 10⟩
        ⟨⟨2024, 4, 1⟩, [⟨2024, 5, 10⟩], none⟩).1.highlightedIndex =
      some (getDateInMonth ⟨2024, 5, 10⟩ - 1)) := by decide

/-- C5 (amended): clicking "today" sets the displayed month to the
current date's month, sets the highlighted index to the number of
pending suggestions plus today's day-of-month minus one (equal to the
day-of-month index only when no suggestion is pending), leaves the
suggestions untouched and focuses the input. -/
theorem showToday_behavior (today : CalendarDate) (s : DateInputState) :
    (showToday today s).1.calendarDate = today ∧
    (showToday today s).1.highlightedIndex =
      some (s.suggestedItems.length + getDateInMonth today - 1) ∧
    (showToday today s).1.suggestedItems = s.suggestedItems ∧
    (showToday today s).2 = true :=
  ⟨rfl, rfl, rfl, rfl⟩

/-- Counterexample to C3 as stated: typing "2024-03-15" with minimum
2024-03-20 parses to an out-of-range date, yet the highlight is not
left unset: the previously highlighted index 4 stays highlighted. -/
theorem typedOutOfRange_highlightUnset_refuted :
    parseInputToDate "2024-03-15" = some ⟨2024, 3, 15⟩ ∧
    getIsDateInRange (some ⟨2024, 3, 15⟩) (some ⟨2024, 3, 20⟩) none =
      false ∧
    ¬ ((changeInput "2024-03-15" ⟨some ⟨2024, 3, 20⟩, none, false⟩
        ⟨⟨2024, 1, 1⟩, [], some 4⟩).highlightedIndex = none) := by
  decide

/-- C3 (amended): typed input that parses to an out-of-range date sets
the displayed month to that date's month and records it as the
suggestion, but leaves the highlight unchanged from its previous value
(it is not set to the typed date's index, nor forced to unset), and
Enter never commits the out-of-range typed date, because its cell is
disabled. -/
theorem typedOutOfRange_behavior (inputValue : String) (p : Props)
    (s : DateInputState) (d : CalendarDate)
    (hd : parseInputToDate inputValue = some d)
    (hout : getIsDateInRange (some d) p.minValue p.maxValue = false) :
    (changeInput inputValue p s).calendarDate = d ∧
    (changeInput inputValue p s).suggestedItems = [d] ∧
    (changeInput inputValue p s).highlightedIndex = s.highlightedIndex ∧
    ∀ r, enterCommit p (changeInput inputValue p s) = some r → r ≠ d := by
  refine ⟨?_, ?_, ?_, ?_⟩
  · simp [changeInput, hd, hout]
  · simp [changeInput, hd, hout]
  · simp [changeInput, hd, hout]
  · intro r hr hrd
    subst hrd
    have hin := enterCommit_inRange p _ r hr
    rw [hout] at hin
    exact Bool.noConfusion hin

/-- Witness for C3 (amended): the same scenario as the counterexample,
with the previous highlight preserved and the month moved. -/
theorem typedOutOfRange_behavior_witness :
    (changeInput "2024-03-15" ⟨some ⟨2024, 3, 20⟩, none, false⟩
        ⟨⟨2024, 1, 1⟩, [], some 4⟩).calendarDate = ⟨2024, 3, 15⟩ ∧
    (changeInput "2024-03-15" ⟨some ⟨2024, 3, 20⟩, none, false⟩
        ⟨⟨2024, 1, 1⟩, [], some 4⟩).suggestedItems = [⟨2024, 3, 15⟩] ∧
    (changeInput "2024-03-15" ⟨some ⟨2024, 3, 20⟩, none, false⟩
        ⟨⟨2024, 1, 1⟩, [], some 4⟩).highlightedIndex = some 4 := by
  have h := typedOutOfRange_behavior "2024-03-15"
    ⟨some ⟨2024, 3, 20⟩, none, false⟩ ⟨⟨2024, 1, 1⟩, [], some 4⟩
    ⟨2024, 3, 15⟩ (by decide) (by decide)
  exact ⟨h.1, h.2.1, h.2.2.1⟩

/-- Counterexample to C4 as stated: blurring with the whitespace-only
text " " (blank, but of nonzero length) emits nothing at all, whereas
the claim requires the empty string to be emitted for blank text: the
code tests `length === 0`, not blankness. -/
theorem blurBlank_emitsNothing_refuted :
    isBlank " " = true ∧ onInputBlur " " ⟨none, none, false⟩ = [] := by
  decide

/-- C4 (amended): on blur, empty raw text (length 0) emits the empty
string; text that parses to an in-range date emits that date;
everything else, including whitespace-only text, unparseable text and
out-of-range dates, emits nothing, leaving the last committed value
unchanged with no error raised. -/
theorem onInputBlur_emitPolicy (inputValue : String) (p : Props) :
    (inputValue = "" → onInputBlur inputValue p = [""]) ∧
    (∀ d, parseInputToDate inputValue = some d →
      getIsDateInRange (some d) p.minValue p.maxValue = true →
      onInputBlur inputValue p = [serializeDate d]) ∧
    (parseInputToDate inputValue = none → inputValue ≠ "" →
      onInputBlur inputValue p = []) ∧
    (∀ d, parseInputToDate inputValue = some d →
      getIsDateInRange (some d) p.minValue p.maxValue = false →
      onInputBlur inputValue p = []) := by
  refine ⟨?_, ?_, ?_, ?_⟩
  · rintro rfl
    have hp : parseInputToDate "" = (none : Option CalendarDate) := by
      decide
    simp [onInputBlur, hp]
  · intro d hd hin
    have hne := parse_some_length_ne inputValue d hd
    simp [onInputBlur, hd, hin, hne]
  · intro hnone hne
    have hlen : inputValue.length ≠ 0 := fun h =>
      hne (string_length_zero inputValue h)
    simp [onInputBlur, hnone, hlen]
  · intro d hd hfalse
    have hne := parse_some_length_ne inputValue d hd
    simp [onInputBlur, hd, hfalse, hne]

/-- Witness for C4 (amended): blurring with "2024-05-01" and no range
limits emits exactly that date. -/
theorem onInputBlur_emitPolicy_witness :
    onInputBlur "2024-05-01" ⟨none, none, false⟩ =
      [serializeDate ⟨2024, 5, 1⟩] :=
  (onInputBlur_emitPolicy "2024-05-01" ⟨none, none, false⟩).2.1
    ⟨2024, 5, 1⟩ (by decide) (by decide)

/-- C8: with `onChange` absent and `isReadOnly` unset, the component
only logs the development warning: the transition function is total
(nothing is thrown), the state after any key event is identical to the
state with `onChange` present, and no change event is delivered on key
events or blur. -/
theorem missingOnChange_onlyWarns (key : Key) (inputValue : String)
    (p : Props) (s : DateInputState) (hro : p.isReadOnly = false) :
    (keyDownStep false key inputValue p s).state =
      (keyDownStep true key inputValue p s).state ∧
    (keyDownStep false key inputValue p s).delivered = [] ∧
    (keyDownStep false key inputValue p s).warned = true ∧
    (keyDownStep true key inputValue p s).warned = false ∧
    blurEmits false inputValue p = [] := by
  refine ⟨?_, ?_, ?_, ?_, ?_⟩ <;>
    simp [keyDownStep, warningLogged, blurEmits, hro]

/-- Witness for C8: an Enter press on a concrete editable state with
`onChange` absent warns, delivers nothing, and leaves the same state
as with `onChange` present. -/
theorem missingOnChange_onlyWarns_witness :
    (keyDownStep false Key.enter "" ⟨none, none, false⟩
        ⟨⟨2024, 1, 1⟩, [], none⟩).state =
      (keyDownStep true Key.enter "" ⟨none, none, false⟩
        ⟨⟨2024, 1, 1⟩, [], none⟩).state ∧
    (keyDownStep false Key.enter "" ⟨none, none, false⟩
        ⟨⟨2024, 1, 1⟩, [], none⟩).delivered = [] ∧
    (keyDownStep false Key.enter "" ⟨none, none, false⟩
        ⟨⟨2024, 1, 1⟩, [], none⟩).warned = true := by
  have h := missingOnChange_onlyWarns Key.enter "" ⟨none, none, false⟩
    ⟨⟨2024, 1, 1⟩, [], none⟩ rfl
  exact ⟨h.1, h.2.1, h.2.2.1⟩
